import Mathlib

/-!
Shallow embedding of the adaptive quiz engine (Mastery_Learning_, src/app.py
with src/main.py as a sibling variant).

Python values that flow through the quiz loop are strings (from `st.radio`)
or lists of strings (from `st.multiselect`); raw JSON records parsed from the
generation provider may additionally hold numbers and nested objects.
Session state is Streamlit's `st.session_state` dictionary; after the
module-level `init_session()` call every key is present, so the in-quiz
transitions work on a record with total fields (`SessionState`), while
`init_session` itself is modelled on a record of optional fields
(`RawSession`, `none` = key absent) to capture its
`if key not in st.session_state` guard.
-/

/-- A Python value submitted as (or stored as) an answer: a scalar string
or a list of strings (`st.radio` / `st.multiselect` outputs, and the
`answer` field of generated questions). -/
inductive PyVal where
  | vstr (s : String)
  | vlist (l : List String)
  deriving DecidableEq, Repr

/-- Python `set(a) <= set(b)` on lists of strings: every element of `a`
occurs in `b`. -/
def subsetB (a b : List String) : Bool :=
  a.all (fun x => decide (x ∈ b))

/-- Python `set(a) == set(b)` on lists of strings: mutual containment. -/
def setEqB (a b : List String) : Bool :=
  subsetB a b && subsetB b a

/-- The elements Python's `set(...)` constructor extracts from a value:
iterating a string yields its characters as one-character strings;
iterating a list yields its elements. -/
def pyElems : PyVal → List String
  | .vstr s => s.toList.map (fun c => String.mk [c])
  | .vlist l => l

/-- app.py lines 245-249, the answer evaluator inside `main`:

    correct_answer = question['answer']
    if isinstance(correct_answer, list):
        correct = set(user_answer) == set(correct_answer)
    else:
        correct = user_answer == correct_answer

The branch is chosen by the *expected* answer's shape, never by the
question's `type` field.  Python `==` between a list and a string is `False`
(no error); `set()` of a string is its set of characters. -/
def isCorrect (correct_answer user_answer : PyVal) : Bool :=
  match correct_answer with
  | .vlist l => setEqB (pyElems user_answer) l
  | .vstr s =>
    match user_answer with
    | .vstr t => t == s
    | .vlist _ => false

/-- A JSON value as it can appear in a field of a raw generated record:
a string, an array (element contents are never inspected by the validator,
only counted — the generation contract makes them strings), an object
(only its key count can matter, via Python `len`), or a number. -/
inductive JVal where
  | jstr (s : String)
  | jlist (l : List String)
  | jobj (keys : List String)
  | jnum (n : Int)
  deriving DecidableEq, Repr

/-- A raw record parsed from the provider's JSON: an association list of
keys to values (Python dict; `json.loads` keeps one value per key). -/
def RawRecord : Type := List (String × JVal)

instance : DecidableEq RawRecord := by
  unfold RawRecord
  infer_instance

/-- Python `len(v)`: defined for strings (character count), lists
(element count) and dicts (key count); raises `TypeError` (hence `none`)
on a number. -/
def pyLen : JVal → Option Nat
  | .jstr s => some s.length
  | .jlist l => some l.length
  | .jobj keys => some keys.length
  | .jnum _ => none

/-- Python `isinstance(v, (str, list))`. -/
def isStrOrList : JVal → Bool
  | .jstr _ => true
  | .jlist _ => true
  | _ => false

/-- Python `all(key in q for key in ['question', 'options', 'answer', 'type'])`
from app.py line 94. -/
def hasRequiredKeys (q : RawRecord) : Bool :=
  ["question", "options", "answer", "type"].all (fun k => (q.lookup k).isSome)

/-- One iteration of the loop in `validate_questions` (app.py lines 93-96):
`ok b` means the record passed (`b = true`) or failed (`b = false`) the
checks; `error ()` models the `TypeError` Python raises when
`len(q['options'])` is evaluated on an unsized value.  The `and` in

    if isinstance(q['answer'], (str, list)) and len(q['options']) >= 2:

short-circuits, so `len` is never evaluated when the `isinstance` test
fails, and neither test runs when a required key is missing. -/
def validateOne (q : RawRecord) : Except Unit Bool :=
  if hasRequiredKeys q then
    match q.lookup "answer", q.lookup "options" with
    | some a, some o =>
      if isStrOrList a then
        match pyLen o with
        | some n => .ok (decide (2 ≤ n))
        | none => .error ()
      else
        .ok false
    | _, _ => .ok false
  else
    .ok false

/-- app.py lines 90-97, `validate_questions`: keep, in input order, the
records that have all four keys, a `str`/`list` answer and at least two
options; an uncaught `TypeError` (unsized `options` after a shape-valid
answer) aborts the whole call. -/
def validate_questions : List RawRecord → Except Unit (List RawRecord)
  | [] => .ok []
  | q :: rest =>
    match validateOne q with
    | .error e => .error e
    | .ok b =>
      match validate_questions rest with
      | .error e => .error e
      | .ok vs => .ok (if b then q :: vs else vs)

/-- The acceptance predicate the spec describes: all four keys present,
answer a string or list, and `options` of Python length at least 2. -/
def accepts (q : RawRecord) : Bool :=
  hasRequiredKeys q
    && (match q.lookup "answer" with
        | some a => isStrOrList a
        | none => false)
    && (match q.lookup "options" with
        | some o => decide (2 ≤ (pyLen o).getD 0)
        | none => false)

/-- A record on which `validateOne` cannot raise: either it fails the key
or answer-shape check (so `len` is never reached), or its `options` value
has a Python length. -/
def recordSafe (q : RawRecord) : Bool :=
  !(hasRequiredKeys q
      && (match q.lookup "answer" with
          | some a => isStrOrList a
          | none => false)
      && (match q.lookup "options" with
          | some o => (pyLen o).isNone
          | none => false))

/-- A validated question as the quiz loop consumes it: the dict fields
the loop reads (`question`, `options`, `answer`, `type`). -/
structure Question where
  question : String
  options : List String
  answer : PyVal
  qtype : String
  deriving DecidableEq, Repr

/-- One entry of `st.session_state.history` (app.py lines 257-261). -/
structure HistoryEntry where
  date : String
  question : String
  correct : Bool
  deriving DecidableEq, Repr

/-- The `st.session_state` dictionary during a quiz, after `init_session()`
has run at module load, so every key is present.  `questions = none` models the
Python value `None` (and the cleared state); `some []` a present empty
list. -/
structure SessionState where
  level : Nat
  score : Nat
  questions : Option (List Question)
  current_index : Nat
  topic : Option String
  quiz_started : Bool
  api_key : Option String
  history : List HistoryEntry
  deriving DecidableEq, Repr

/-- The `st.session_state` dictionary viewed with keys possibly absent
(`none` = `key not in st.session_state`).  Only `init_session` needs this
view. -/
structure RawSession where
  level : Option Nat
  score : Option Nat
  questions : Option (Option (List Question))
  current_index : Option Nat
  topic : Option (Option String)
  quiz_started : Option Bool
  api_key : Option (Option String)
  history : Option (List HistoryEntry)
  deriving DecidableEq, Repr

/-- app.py lines 12-25, `init_session`: for each key of
`session_defaults`, set the default value only `if key not in
st.session_state`; an existing value is kept as is.  The sidebar's
"Reset Session" button (lines 175-177) calls exactly this function. -/
def init_session (s : RawSession) : RawSession :=
  { level := some (s.level.getD 1)
    score := some (s.score.getD 0)
    questions := some (s.questions.getD none)
    current_index := some (s.current_index.getD 0)
    topic := some (s.topic.getD none)
    quiz_started := some (s.quiz_started.getD false)
    api_key := some (s.api_key.getD none)
    history := some (s.history.getD []) }

/-- app.py lines 221-225: the "Start Learning Session" button with a
non-blank topic sets `topic` and `quiz_started`; nothing else changes. -/
def startSession (s : SessionState) (topic : String) : SessionState :=
  { s with topic := some topic, quiz_started := true }

/-- app.py lines 229-238: the generated (already validated) question list
is assigned to `st.session_state.questions`; if it is empty (falsy), the
quiz is not started (`quiz_started = False`). -/
def loadQuestions (s : SessionState) (qs : List Question) : SessionState :=
  let s1 := { s with questions := some qs }
  if qs.isEmpty then { s1 with quiz_started := false } else s1

/-- app.py lines 240-265: with `current_index < len(questions)`, the
Submit button evaluates the answer against
`questions[current_index]['answer']`, increments `score` on a correct
answer, appends one history entry (date, question text, correctness)
regardless of the outcome, and increments `current_index`.  The button is
only rendered while `current_index < len(questions)`; outside that guard
the state is untouched. -/
def submitAnswer (s : SessionState) (user_answer : PyVal) (date : String) :
    SessionState :=
  match s.questions with
  | none => s
  | some qs =>
    if h : s.current_index < qs.length then
      let q := qs.get ⟨s.current_index, h⟩
      let correct := isCorrect q.answer user_answer
      { s with
        score := if correct then s.score + 1 else s.score
        history := s.history ++ [⟨date, q.question, correct⟩]
        current_index := s.current_index + 1 }
    else s

/-- Submitting a whole list of (answer, date) pairs in order. -/
def submitAll (s : SessionState) (answers : List (PyVal × String)) :
    SessionState :=
  answers.foldl (fun st p => submitAnswer st p.1 p.2) s

/-- app.py lines 266-291, the set-completion branch
(`current_index >= len(questions)`):

    score_percent = (st.session_state.score/len(st.session_state.questions))*100
    ...
    if score_percent >= 80 and st.session_state.level < 3:
        level += 1; questions = None; current_index = 0; score = 0
    else:
        # "Retry Level" button
        questions = None; current_index = 0; score = 0

The division is Python float division, modelled exactly over ℚ; on an
empty question list it raises `ZeroDivisionError`, modelled as `none`.
The retry branch's resets happen when the learner presses "Retry Level";
the transition as a whole is the spec's `resolveSetCompletion()`. -/
def resolveSetCompletion (s : SessionState) : Option SessionState :=
  match s.questions with
  | none => none
  | some qs =>
    if qs.length = 0 then none
    else
      let score_percent : ℚ := ((s.score : ℚ) / (qs.length : ℚ)) * 100
      if 80 ≤ score_percent ∧ s.level < 3 then
        some { s with
                level := s.level + 1
                questions := none
                current_index := 0
                score := 0 }
      else
        some { s with
                questions := none
                current_index := 0
                score := 0 }

/-- The SessionState data-model range for `level`. -/
def LevelInRange (s : SessionState) : Prop :=
  1 ≤ s.level ∧ s.level ≤ 3

/-! ### Concrete sample data used by counterexamples and witnesses -/

/-- A validated single-choice question (the level-1 example from app.py
line 60). -/
def sampleQ : Question := ⟨"What is 2+2?", ["3", "4", "5"], .vstr "4", "MCQ"⟩

/-- A level-2 session that has just exhausted a 10-question set with 8
correct answers. -/
def sessionLevel2Score8 : SessionState :=
  ⟨2, 8, some (List.replicate 10 sampleQ), 10, some "Math", true, none, []⟩

/-- The same session with only 7 correct answers. -/
def sessionLevel2Score7 : SessionState :=
  ⟨2, 7, some (List.replicate 10 sampleQ), 10, some "Math", true, none, []⟩

/-- A level-3 session that has just exhausted a 5-question set with a
perfect score (accuracy 100%). -/
def sessionLevel3Cap : SessionState :=
  ⟨3, 5, some (List.replicate 5 sampleQ), 5, some "Science", true, none, []⟩

/-- A fully initialized mid-quiz session dictionary: every key present,
level 2, a nonzero score, an active topic and one history entry. -/
def liveSession : RawSession :=
  ⟨some 2, some 5, some none, some 3, some (some "History"), some true,
    some (some "sk-key"), some [⟨"2026-10-12 10:00", "Q1", true⟩]⟩

/-- A raw record with all four keys, a string answer of valid shape, but a
number where `options` should be: `len(q['options'])` raises `TypeError`
on it. -/
def recUnsizedOptions : RawRecord :=
  [("question", JVal.jstr "q"), ("options", JVal.jnum 5),
    ("answer", JVal.jstr "4"), ("type", JVal.jstr "MCQ")]

/-- A well-formed raw record. -/
def recGoodMcq : RawRecord :=
  [("question", JVal.jstr "Pick a vowel"), ("options", JVal.jlist ["a", "b"]),
    ("answer", JVal.jstr "a"), ("type", JVal.jstr "MCQ")]

/-- A raw record missing the `options` key. -/
def recMissingOptions : RawRecord :=
  [("question", JVal.jstr "q2"), ("answer", JVal.jstr "x"),
    ("type", JVal.jstr "MCQ")]

/-- A raw record with a single option. -/
def recOneOption : RawRecord :=
  [("question", JVal.jstr "q3"), ("options", JVal.jlist ["only"]),
    ("answer", JVal.jstr "only"), ("type", JVal.jstr "MCQ")]

/-- A raw record whose answer is a nested object. -/
def recObjAnswer : RawRecord :=
  [("question", JVal.jstr "q4"), ("options", JVal.jlist ["a", "b"]),
    ("answer", JVal.jobj ["k"]), ("type", JVal.jstr "Matching")]

/-! ### Helper lemmas -/

lemma setEqB_iff (a b : List String) :
    setEqB a b = true ↔ ∀ x, x ∈ a ↔ x ∈ b := by
  simp only [setEqB, subsetB, Bool.and_eq_true, List.all_eq_true,
    decide_eq_true_eq]
  constructor
  · rintro ⟨h1, h2⟩ x
    exact ⟨h1 x, h2 x⟩
  · intro h
    exact ⟨fun x hx => (h x).1 hx, fun x hx => (h x).2 hx⟩

lemma isCorrect_vlist_iff (l sub : List String) :
    isCorrect (.vlist l) (.vlist sub) = true ↔ ∀ x, x ∈ sub ↔ x ∈ l :=
  setEqB_iff sub l

lemma submitAnswer_inProgress (s : SessionState) (qs : List Question)
    (a : PyVal) (d : String) (hq : s.questions = some qs)
    (h : s.current_index < qs.length) :
    submitAnswer s a d =
      { s with
        score := if isCorrect (qs.get ⟨s.current_index, h⟩).answer a
                 then s.score + 1 else s.score
        history := s.history ++
          [⟨d, (qs.get ⟨s.current_index, h⟩).question,
            isCorrect (qs.get ⟨s.current_index, h⟩).answer a⟩]
        current_index := s.current_index + 1 } := by
  simp only [submitAnswer, hq]
  rw [dif_pos h]

lemma submitAnswer_done (s : SessionState) (qs : List Question) (a : PyVal)
    (d : String) (hq : s.questions = some qs)
    (h : ¬ s.current_index < qs.length) :
    submitAnswer s a d = s := by
  simp only [submitAnswer, hq]
  rw [dif_neg h]

lemma submitAll_nil (s : SessionState) : submitAll s [] = s := rfl

lemma submitAll_cons (s : SessionState) (p : PyVal × String)
    (rest : List (PyVal × String)) :
    submitAll s (p :: rest) = submitAll (submitAnswer s p.1 p.2) rest := rfl

lemma submitAll_spec (answers : List (PyVal × String)) (s : SessionState)
    (qs : List Question) (hq : s.questions = some qs)
    (hle : s.current_index + answers.length ≤ qs.length) :
    (submitAll s answers).questions = some qs ∧
    (submitAll s answers).current_index = s.current_index + answers.length ∧
    (submitAll s answers).history.length =
      s.history.length + answers.length := by
  induction answers generalizing s with
  | nil =>
    rw [submitAll_nil]
    exact ⟨hq, by simp, by simp⟩
  | cons p rest ih =>
    have hlt : s.current_index < qs.length := by
      simp only [List.length_cons] at hle; omega
    have h1 : (submitAnswer s p.1 p.2).questions = some qs := by
      rw [submitAnswer_inProgress s qs p.1 p.2 hq hlt]
      exact hq
    have h2 : (submitAnswer s p.1 p.2).current_index = s.current_index + 1 := by
      rw [submitAnswer_inProgress s qs p.1 p.2 hq hlt]
    have h3 : (submitAnswer s p.1 p.2).history.length =
        s.history.length + 1 := by
      rw [submitAnswer_inProgress s qs p.1 p.2 hq hlt]
      simp
    rw [submitAll_cons]
    obtain ⟨g1, g2, g3⟩ := ih (submitAnswer s p.1 p.2) h1
      (by rw [h2]; simp only [List.length_cons] at hle; omega)
    refine ⟨g1, ?_, ?_⟩
    · rw [g2, h2]; simp only [List.length_cons]; omega
    · rw [g3, h3]; simp only [List.length_cons]; omega

lemma submitAnswer_bounds (s : SessionState) (qs : List Question)
    (a : PyVal) (d : String) (hq : s.questions = some qs)
    (hsc : s.score ≤ s.current_index) (hci : s.current_index ≤ qs.length) :
    (submitAnswer s a d).questions = some qs ∧
    (submitAnswer s a d).score ≤ (submitAnswer s a d).current_index ∧
    (submitAnswer s a d).current_index ≤ qs.length := by
  by_cases h : s.current_index < qs.length
  · rw [submitAnswer_inProgress s qs a d hq h]
    refine ⟨hq, ?_, ?_⟩
    · show (if isCorrect (qs.get ⟨s.current_index, h⟩).answer a
            then s.score + 1 else s.score) ≤ s.current_index + 1
      split <;> omega
    · show s.current_index + 1 ≤ qs.length
      omega
  · rw [submitAnswer_done s qs a d hq h]
    exact ⟨hq, hsc, hci⟩

lemma submitAll_bounds (answers : List (PyVal × String)) (s : SessionState)
    (qs : List Question) (hq : s.questions = some qs)
    (hsc : s.score ≤ s.current_index) (hci : s.current_index ≤ qs.length) :
    (submitAll s answers).questions = some qs ∧
    (submitAll s answers).score ≤ (submitAll s answers).current_index ∧
    (submitAll s answers).current_index ≤ qs.length := by
  induction answers generalizing s with
  | nil =>
    rw [submitAll_nil]
    exact ⟨hq, hsc, hci⟩
  | cons p rest ih =>
    rw [submitAll_cons]
    obtain ⟨h1, h2, h3⟩ := submitAnswer_bounds s qs p.1 p.2 hq hsc hci
    exact ih (submitAnswer s p.1 p.2) h1 h2 h3

lemma validateOne_of_safe (q : RawRecord) (h : recordSafe q = true) :
    validateOne q = .ok (accepts q) := by
  unfold validateOne accepts
  by_cases hk : hasRequiredKeys q = true
  · have hkeys := hk
    simp only [hasRequiredKeys, List.all_cons, List.all_nil, Bool.and_eq_true,
      Bool.and_true] at hkeys
    obtain ⟨hq1, hopt, hans, hty⟩ := hkeys
    obtain ⟨a, ha⟩ := Option.isSome_iff_exists.mp hans
    obtain ⟨o, ho⟩ := Option.isSome_iff_exists.mp hopt
    cases hsl : isStrOrList a with
    | false => simp [ha, ho, hsl, hk]
    | true =>
      cases hpl : pyLen o with
      | none =>
        exfalso
        unfold recordSafe at h
        simp [hk, ha, ho, hsl, hpl] at h
      | some n => simp [ha, ho, hsl, hpl, hk]
  · simp [hk]

lemma resolveSetCompletion_eq (s : SessionState) (qs : List Question)
    (hq : s.questions = some qs) (hne : qs.length ≠ 0) :
    resolveSetCompletion s =
      if 80 ≤ ((s.score : ℚ) / (qs.length : ℚ)) * 100 ∧ s.level < 3 then
        some { s with
                level := s.level + 1
                questions := none
                current_index := 0
                score := 0 }
      else
        some { s with questions := none, current_index := 0, score := 0 } := by
  simp only [resolveSetCompletion, hq]
  rw [if_neg hne]

lemma submitAnswer_level (s : SessionState) (a : PyVal) (d : String) :
    (submitAnswer s a d).level = s.level := by
  rcases hq : s.questions with _ | qs
  · simp only [submitAnswer, hq]
  · by_cases h : s.current_index < qs.length
    · rw [submitAnswer_inProgress s qs a d hq h]
    · rw [submitAnswer_done s qs a d hq h]

lemma loadQuestions_level (s : SessionState) (qs : List Question) :
    (loadQuestions s qs).level = s.level := by
  unfold loadQuestions
  split <;> rfl

/-- A fresh level-1 session holding a one-question set, about to answer
question 0. -/
def startState : SessionState :=
  ⟨1, 0, some [sampleQ], 0, some "Math", true, none, []⟩

/-! ### Claims -/

/-- Claim C1: the claim says Sequence/Matching answers are judged by exact
ordered-sequence equality, so the reordered submission should be judged
incorrect.  The code chooses its comparison by the expected answer's
Python type alone and compares every list-shaped answer with `set(...) ==
set(...)`: the reordered Sequence submission is judged correct, exactly
like the in-order one. -/
theorem sequence_submission_judged_by_set_equality :
    isCorrect (PyVal.vlist ["Jupiter", "Earth", "Mars"])
        (PyVal.vlist ["Earth", "Jupiter", "Mars"]) = true ∧
    isCorrect (PyVal.vlist ["Jupiter", "Earth", "Mars"])
        (PyVal.vlist ["Jupiter", "Earth", "Mars"]) = true := by
  exact ⟨by decide, by decide⟩

/-- Claim C2: the claim says the reset action returns any state to
`level = 1, score = 0, started = false` with topic/questions/index cleared
and history preserved.  The Reset Session button calls `init_session()`,
which writes only keys that are absent from `st.session_state`; on a fully
initialized mid-quiz session it changes nothing: level stays 2, the quiz
stays started, the topic stays set. -/
theorem reset_button_leaves_live_session_unchanged :
    init_session liveSession = liveSession ∧
    (init_session liveSession).level = some 2 ∧
    (init_session liveSession).quiz_started = some true ∧
    (init_session liveSession).topic = some (some "History") ∧
    (init_session liveSession).history = liveSession.history :=
  ⟨rfl, rfl, rfl, rfl, rfl⟩

/-- Claim C3 counterexample: a scalar string submitted where a list is
expected is not always judged incorrect: Python's `set("ab")` equals
`set(["a", "b"])`, so this shape mismatch is judged correct. -/
theorem scalar_submission_for_list_answer_judged_correct :
    isCorrect (PyVal.vlist ["a", "b"]) (PyVal.vstr "ab") = true := by
  decide

/-- Claim C3 (amended): a shape-mismatched submission never raises; a
sequence submitted where a scalar is expected is always judged incorrect,
while a scalar string submitted where a list is expected is judged by
comparing the set of its single-character substrings with the set of the
expected list's elements — usually incorrect, but correct whenever those
sets coincide. -/
theorem shape_mismatch_no_error_characterization :
    (∀ e : String, ∀ l : List String,
      isCorrect (PyVal.vstr e) (PyVal.vlist l) = false) ∧
    (∀ l : List String, ∀ t : String,
      (isCorrect (PyVal.vlist l) (PyVal.vstr t) = true ↔
        ∀ x, x ∈ t.toList.map (fun c => String.mk [c]) ↔ x ∈ l)) := by
  constructor
  · intro e l
    rfl
  · intro l t
    exact setEqB_iff (t.toList.map (fun c => String.mk [c])) l

/-- Claim C4: every modelled transition keeps the session level in 1..3
(submitting answers, starting a session and loading questions never touch
it, resolving a completed set increments it only below 3, and the reset
call either keeps it or writes the default 1); in particular, at level 3
with accuracy at least 80% the completion transition leaves level at 3
while still resetting the score and clearing the question set. -/
theorem level_stays_in_range :
    (∀ s a d, LevelInRange s → LevelInRange (submitAnswer s a d)) ∧
    (∀ s t, LevelInRange s → LevelInRange (startSession s t)) ∧
    (∀ s qs, LevelInRange s → LevelInRange (loadQuestions s qs)) ∧
    (∀ s s₂, LevelInRange s → resolveSetCompletion s = some s₂ →
      LevelInRange s₂) ∧
    (∀ r, (init_session r).level = r.level ∨
      (init_session r).level = some 1) ∧
    (∀ s qs, s.questions = some qs → s.level = 3 → qs ≠ [] →
      80 ≤ ((s.score : ℚ) / (qs.length : ℚ)) * 100 →
      resolveSetCompletion s =
        some { s with questions := none, current_index := 0, score := 0 }) := by
  refine ⟨?_, ?_, ?_, ?_, ?_, ?_⟩
  · intro s a d h
    unfold LevelInRange at h ⊢
    rw [submitAnswer_level]
    exact h
  · intro s t h
    exact h
  · intro s qs h
    unfold LevelInRange at h ⊢
    rw [loadQuestions_level]
    exact h
  · intro s s₂ hlevel hres
    rcases hq : s.questions with _ | qs
    · simp only [resolveSetCompletion, hq] at hres
      exact Option.noConfusion hres
    · by_cases hlen : qs.length = 0
      · simp only [resolveSetCompletion, hq, if_pos hlen] at hres
        exact Option.noConfusion hres
      · rw [resolveSetCompletion_eq s qs hq hlen] at hres
        split at hres
        · next hcond =>
            obtain rfl := Option.some.inj hres
            obtain ⟨h1, h2⟩ := hlevel
            have h3 := hcond.2
            show 1 ≤ s.level + 1 ∧ s.level + 1 ≤ 3
            omega
        · obtain rfl := Option.some.inj hres
          exact hlevel
  · intro r
    rcases hl : r.level with _ | v
    · right
      simp [init_session, hl]
    · left
      simp [init_session, hl]
  · intro s qs hq h3 hne hacc
    have hlen : qs.length ≠ 0 := fun h0 => hne (List.length_eq_zero.mp h0)
    rw [resolveSetCompletion_eq s qs hq hlen]
    rw [if_neg]
    intro hcond
    have := hcond.2
    rw [h3] at this
    omega

theorem level_stays_in_range_witness :
    resolveSetCompletion sessionLevel3Cap =
      some { sessionLevel3Cap with
              questions := none
              current_index := 0
              score := 0 } :=
  level_stays_in_range.2.2.2.2.2 sessionLevel3Cap (List.replicate 5 sampleQ)
    rfl rfl (by decide) (by norm_num [sessionLevel3Cap])

/-- Claim C5: the completion transition advances exactly when accuracy
(score over set length) is at least 80% and the level is below 3; at level
2 with 10 questions, score 8 yields level 3 with score 0 and no question
set, while score 7 keeps level 2 and resets the score. -/
theorem resolve_set_completion_advance_law :
    (∀ s qs, s.questions = some qs → qs ≠ [] →
      ((∃ s₂, resolveSetCompletion s = some s₂ ∧ s₂.level = s.level + 1) ↔
        (80 ≤ ((s.score : ℚ) / (qs.length : ℚ)) * 100 ∧ s.level < 3))) ∧
    resolveSetCompletion sessionLevel2Score8 =
      some ⟨3, 0, none, 0, some "Math", true, none, []⟩ ∧
    resolveSetCompletion sessionLevel2Score7 =
      some ⟨2, 0, none, 0, some "Math", true, none, []⟩ := by
  refine ⟨?_, ?_, ?_⟩
  · intro s qs hq hne
    have hlen : qs.length ≠ 0 := fun h0 => hne (List.length_eq_zero.mp h0)
    rw [resolveSetCompletion_eq s qs hq hlen]
    by_cases hcond : 80 ≤ ((s.score : ℚ) / (qs.length : ℚ)) * 100 ∧ s.level < 3
    · rw [if_pos hcond]
      exact ⟨fun _ => hcond, fun _ => ⟨_, rfl, rfl⟩⟩
    · rw [if_neg hcond]
      constructor
      · rintro ⟨s₂, hs₂, hlev⟩
        obtain rfl := Option.some.inj hs₂
        have h2 : s.level = s.level + 1 := hlev
        omega
      · intro hcond2
        exact absurd hcond2 hcond
  · unfold resolveSetCompletion sessionLevel2Score8
    norm_num
  · unfold resolveSetCompletion sessionLevel2Score7
    norm_num

theorem resolve_set_completion_advance_law_witness :
    (∃ s₂, resolveSetCompletion sessionLevel2Score8 = some s₂ ∧
        s₂.level = sessionLevel2Score8.level + 1) ↔
      (80 ≤ ((sessionLevel2Score8.score : ℚ) /
          ((List.replicate 10 sampleQ).length : ℚ)) * 100 ∧
        sessionLevel2Score8.level < 3) :=
  resolve_set_completion_advance_law.1 sessionLevel2Score8
    (List.replicate 10 sampleQ) rfl (by decide)

/-- Claim C6: the claim says the completion transition must not divide by
zero on a zero-length question set, treating accuracy as 0 and retrying.
The code computes `(score/len(questions))*100` with no guard, which raises
`ZeroDivisionError` on an empty set — modelled here as producing no
result at all, at two concrete states. -/
theorem resolve_empty_set_divides_by_zero :
    resolveSetCompletion ⟨1, 0, some [], 0, some "Math", true, none, []⟩ =
      none ∧
    resolveSetCompletion ⟨3, 4, some [], 2, some "Sci", true, none, []⟩ =
      none :=
  ⟨rfl, rfl⟩

/-- Claim C7: from the start of a non-empty question set, submitting one
answer per question drives `current_index` from 0 to the set's length and
appends exactly one history entry per submission — exactly `length`
entries in total; each in-progress submission appends precisely the entry
(date, question text, correctness), correct or not. -/
theorem submit_all_drives_index_and_history (s : SessionState)
    (qs : List Question) (answers : List (PyVal × String))
    (hq : s.questions = some qs) (h0 : s.current_index = 0) (hne : qs ≠ [])
    (hlen : answers.length = qs.length) :
    (submitAll s answers).current_index = qs.length ∧
    (submitAll s answers).history.length = s.history.length + qs.length ∧
    (∀ s₂ a d (hlt : s₂.current_index < qs.length), s₂.questions = some qs →
      (submitAnswer s₂ a d).history =
        s₂.history ++ [⟨d, (qs.get ⟨s₂.current_index, hlt⟩).question,
          isCorrect (qs.get ⟨s₂.current_index, hlt⟩).answer a⟩]) := by
  obtain ⟨g1, g2, g3⟩ := submitAll_spec answers s qs hq (by omega)
  refine ⟨by omega, by omega, ?_⟩
  intro s₂ a d hlt hq₂
  rw [submitAnswer_inProgress s₂ qs a d hq₂ hlt]

theorem submit_all_drives_index_and_history_witness :
    (submitAll startState [(PyVal.vstr "4", "2026-10-12 10:00")]).current_index
      = [sampleQ].length :=
  (submit_all_drives_index_and_history startState [sampleQ]
    [(PyVal.vstr "4", "2026-10-12 10:00")] rfl rfl (by decide) rfl).1

/-- Claim C8: for a list-shaped (MultipleChoice) expected answer the
verdict depends only on the set of distinct submitted elements —
invariant under permutation and duplication — and is correct exactly when
that set equals the expected answer's element set; the four concrete
submissions of the spec behave as stated. -/
theorem multiple_choice_set_semantics :
    (∀ l s1 s2 : List String, (∀ x, x ∈ s1 ↔ x ∈ s2) →
      isCorrect (PyVal.vlist l) (PyVal.vlist s1) =
        isCorrect (PyVal.vlist l) (PyVal.vlist s2)) ∧
    (∀ l sub : List String,
      (isCorrect (PyVal.vlist l) (PyVal.vlist sub) = true ↔
        ∀ x, x ∈ sub ↔ x ∈ l)) ∧
    isCorrect (PyVal.vlist ["2", "5"]) (PyVal.vlist ["5", "2"]) = true ∧
    isCorrect (PyVal.vlist ["2", "5"]) (PyVal.vlist ["2", "5"]) = true ∧
    isCorrect (PyVal.vlist ["2", "5"]) (PyVal.vlist ["5", "2", "5"]) = true ∧
    isCorrect (PyVal.vlist ["2", "5"]) (PyVal.vlist ["2"]) = false := by
  refine ⟨?_, fun l sub => isCorrect_vlist_iff l sub,
    by decide, by decide, by decide, by decide⟩
  intro l s1 s2 hmem
  have hiff : (isCorrect (PyVal.vlist l) (PyVal.vlist s1) = true) ↔
      (isCorrect (PyVal.vlist l) (PyVal.vlist s2) = true) := by
    rw [isCorrect_vlist_iff, isCorrect_vlist_iff]
    constructor
    · intro h x
      exact (hmem x).symm.trans (h x)
    · intro h x
      exact (hmem x).trans (h x)
  cases h1 : isCorrect (PyVal.vlist l) (PyVal.vlist s1) with
  | true => exact (hiff.mp h1).symm
  | false =>
    cases h2 : isCorrect (PyVal.vlist l) (PyVal.vlist s2) with
    | false => rfl
    | true => exact absurd (h1 ▸ hiff.mpr h2) Bool.false_ne_true

theorem multiple_choice_set_semantics_witness :
    isCorrect (PyVal.vlist ["2", "5"]) (PyVal.vlist ["5", "2", "5"]) =
      isCorrect (PyVal.vlist ["2", "5"]) (PyVal.vlist ["2", "5"]) :=
  multiple_choice_set_semantics.1 ["2", "5"] ["5", "2", "5"] ["2", "5"]
    (by intro x; simp [List.mem_cons]; tauto)

/-- Claim C9 counterexample: a record with all four keys, a string answer
of valid shape, and a number where `options` should be makes
`len(q['options'])` raise `TypeError`, aborting the whole validation
instead of silently dropping the record and returning the accepted
remainder. -/
theorem unsized_options_raises_instead_of_dropping :
    validate_questions [recUnsizedOptions] = Except.error () ∧
    validate_questions [recUnsizedOptions] ≠ Except.ok [] :=
  ⟨rfl, fun h => Except.noConfusion
    ((rfl : validate_questions [recUnsizedOptions] =
        Except.error ()).symm.trans h)⟩

/-- Claim C9 (amended): as long as no record has a valid answer shape
together with an unsized `options` value (which would raise `TypeError`
and abort the whole call), `validate_questions` returns exactly the
records that have all four keys, a scalar-string or sequence answer, and
an `options` value of Python length at least 2, in their original
relative order. -/
theorem validate_questions_filters_in_order (qs : List RawRecord)
    (hsafe : ∀ q ∈ qs, recordSafe q = true) :
    validate_questions qs = Except.ok (qs.filter accepts) := by
  induction qs with
  | nil => rfl
  | cons q rest ih =>
    have hq := hsafe q (List.mem_cons_self q rest)
    have hrest := ih (fun r hr => hsafe r (List.mem_cons_of_mem q hr))
    simp only [validate_questions, validateOne_of_safe q hq, hrest,
      List.filter_cons]

theorem validate_questions_filters_in_order_witness :
    validate_questions
        [recGoodMcq, recMissingOptions, recOneOption, recObjAnswer] =
      Except.ok
        ([recGoodMcq, recMissingOptions, recOneOption,
          recObjAnswer].filter accepts) :=
  validate_questions_filters_in_order
    [recGoodMcq, recMissingOptions, recOneOption, recObjAnswer] (by decide)

/-- Claim C10: each submission of the quiz loop increments `current_index`
by exactly one and increments `score` only on a correct answer, so from a
fresh level attempt (score 0, index 0) the invariant
`score ≤ current_index ≤ length(questions)` holds after every submission
and after any sequence of submissions. -/
theorem score_bounded_by_index (qs : List Question) :
    (∀ s a d, s.questions = some qs → s.score ≤ s.current_index →
      s.current_index ≤ qs.length →
      (submitAnswer s a d).score ≤ (submitAnswer s a d).current_index ∧
      (submitAnswer s a d).current_index ≤ qs.length) ∧
    (∀ s a d (h : s.current_index < qs.length), s.questions = some qs →
      (submitAnswer s a d).current_index = s.current_index + 1 ∧
      ((submitAnswer s a d).score = s.score + 1 ∨
        (submitAnswer s a d).score = s.score)) ∧
    (∀ s answers, s.questions = some qs → s.score = 0 →
      s.current_index = 0 →
      (submitAll s answers).score ≤ (submitAll s answers).current_index ∧
      (submitAll s answers).current_index ≤ qs.length) := by
  refine ⟨?_, ?_, ?_⟩
  · intro s a d hq hsc hci
    exact (submitAnswer_bounds s qs a d hq hsc hci).2
  · intro s a d h hq
    rw [submitAnswer_inProgress s qs a d hq h]
    refine ⟨rfl, ?_⟩
    by_cases hcor : isCorrect (qs.get ⟨s.current_index, h⟩).answer a = true
    · left
      show (if isCorrect (qs.get ⟨s.current_index, h⟩).answer a
            then s.score + 1 else s.score) = s.score + 1
      rw [if_pos hcor]
    · right
      show (if isCorrect (qs.get ⟨s.current_index, h⟩).answer a
            then s.score + 1 else s.score) = s.score
      rw [if_neg hcor]
  · intro s answers hq hs0 hi0
    exact (submitAll_bounds answers s qs hq (by omega) (by omega)).2

theorem score_bounded_by_index_witness :
    (submitAll startState [(PyVal.vstr "3", "2026-10-12 10:05")]).score ≤
      (submitAll startState [(PyVal.vstr "3", "2026-10-12 10:05")]).current_index :=
  ((score_bounded_by_index [sampleQ]).2.2 startState
    [(PyVal.vstr "3", "2026-10-12 10:05")] rfl rfl rfl).1
